import Mathlib

/-!
Shallow embedding of the spot-welder firmware
(src/Spot_Welder_Firmware_ino.ino) and proofs about its claims.

Machine integers: the firmware runs on an Arduino Nano.  The Arduino
`map` function computes in `long` (32-bit signed) arithmetic with C
truncating division; all values reached in this program stay far from
the 32-bit bounds, so we model `long` as `Int` with `Int.div`
(truncation toward zero, exactly the C `/` on these ranges).
`millis()` returns `unsigned long` (32-bit): we model its values as
`Nat` reduced mod 2^32 and model the wrapping subtraction
`millis() - lastWeldTime` explicitly.
-/

namespace SpotWelder

/-- Settings constants, lines 18-20 of the source.  `MIN_TIME_MS` and
`MAX_TIME_MS` are declared in the source but never used. -/
def MIN_TIME_MS : Int := 10

/-- Maximum weld time constant, line 19 (unused in the source). -/
def MAX_TIME_MS : Int := 500

/-- Foot switch debounce constant, line 20.  In the comparison
`millis() - lastWeldTime > DEBOUNCE_MS` it is promoted to
`unsigned long`, so we keep it as a `Nat`. -/
def DEBOUNCE_MS : Nat := 500

/-- Modulus of `unsigned long` (32 bits) on the Arduino Nano. -/
def ULONG_MOD : Nat := 4294967296

/-- Wrapping `unsigned long` subtraction `a - b` as used in
`millis() - lastWeldTime` (line 84). -/
def ulongSub (a b : Nat) : Nat :=
  (a % ULONG_MOD + (ULONG_MOD - b % ULONG_MOD)) % ULONG_MOD

/-- Arduino `map(x, in_min, in_max, out_min, out_max)`:
`(x - in_min) * (out_max - out_min) / (in_max - in_min) + out_min`
in `long` arithmetic; C division truncates toward zero, hence
`Int.tdiv`. -/
def map (x inMin inMax outMin outMax : Int) : Int :=
  Int.tdiv ((x - inMin) * (outMax - outMin)) (inMax - inMin) + outMin

/-- Global variables of the firmware (lines 26-32) together with the
level of the triac trigger output pin (`PIN_TRIAC`); `triac = true`
means the pin is driven HIGH. -/
structure State where
  zeroCrossDetected : Bool
  firingDelay : Int
  weldingActive : Bool
  setTimeVal : Int
  setPowerVal : Int
  lastWeldTime : Nat
  triac : Bool
deriving Repr, DecidableEq

/-- State after `setup()` (lines 34-54): the triac pin is driven LOW
and the globals carry their initializers from lines 26-32. -/
def initState : State :=
  { zeroCrossDetected := false
    firingDelay := 0
    weldingActive := false
    setTimeVal := 0
    setPowerVal := 0
    lastWeldTime := 0
    triac := false }

/-- Level written to the triac pin by a `digitalWrite`. -/
inductive PinWrite where
  | high : PinWrite
  | low : PinWrite
deriving Repr, DecidableEq

/-- Externally visible actions performed by one run of the
zero-crossing handler: busy-waits (`delayMicroseconds`) and writes to
the triac pin. -/
inductive IsrEvent where
  | busyWait (us : Int) : IsrEvent
  | write (w : PinWrite) : IsrEvent
deriving Repr, DecidableEq

/-- `zeroCrossISR` (lines 57-76).  Returns the post-state and the
trace of busy-waits and triac-pin writes the handler performed.  When
`weldingActive` is set it optionally busy-waits for `firingDelay`,
drives the triac HIGH, waits 50 us and drives it LOW again (so the pin
ends LOW); otherwise it returns at once, with no wait and no write. -/
def zeroCrossISR (s : State) : State × List IsrEvent :=
  if s.weldingActive then
    ({ s with triac := false },
      (if s.firingDelay > 0 then [IsrEvent.busyWait s.firingDelay] else []) ++
        [IsrEvent.write PinWrite.high, IsrEvent.busyWait 50,
          IsrEvent.write PinWrite.low])
  else
    (s, [])

/-- State transformation of one zero-crossing interrupt. -/
def isrStep (s : State) : State :=
  (zeroCrossISR s).1

/-- `readPotentiometers` (lines 91-106) with the two raw analog
samples as parameters.  Mirrors the three `map` calls of the source. -/
def readPotentiometers (s : State) (rawTime rawPower : Int) : State :=
  let setTimeVal := map rawTime 0 1023 1 50
  let setPowerVal := map rawPower 0 1023 10 100
  let firingDelay := map setPowerVal 100 10 100 8500
  { s with setTimeVal := setTimeVal, setPowerVal := setPowerVal,
           firingDelay := firingDelay }

/-- The firing-delay computation of line 105, as a function of the
power percentage (the FiringModel `computeFiring` of the spec, realized
in the source as `map(setPowerVal, 100, 10, 100, 8500)`). -/
def computeFiring (powerPercent : Int) : Int :=
  map powerPercent 100 10 100 8500

/-- Command sent to the TM1637 display by `showNumberDecEx`:
the decimal value, the dot/colon segment mask, and the leading-zeros
flag. -/
structure DisplayCmd where
  num : Int
  dots : Nat
  leadingZeros : Bool
deriving Repr, DecidableEq

/-- `updateDisplay` (lines 108-113): shows `setTimeVal * 100 +
setPowerVal` with dot mask `0b01000000` (the colon) and leading zeros
enabled. -/
def updateDisplay (s : State) : DisplayCmd :=
  { num := s.setTimeVal * 100 + s.setPowerVal
    dots := 0b01000000
    leadingZeros := true }

/-- Weld duration computed at session start, line 118:
`setTimeVal * 20` milliseconds. -/
def weldDuration (s : State) : Int :=
  s.setTimeVal * 20

/-- `performWeld` (lines 115-126).  Sets `weldingActive`, blocks for
`weldDuration` milliseconds — during which the zero-crossing interrupt
preempts the blocked loop some number `isrFires` of times — then
clears `weldingActive` and finally drives the triac pin LOW
unconditionally. -/
def performWeld (s : State) (isrFires : Nat) : State :=
  let s1 := { s with weldingActive := true }
  let s2 := Nat.iterate isrStep isrFires s1
  let s3 := { s2 with weldingActive := false }
  { s3 with triac := false }

/-- Lines 82-88 of `loop`: if the foot switch reads LOW and more than
`DEBOUNCE_MS` have elapsed since `lastWeldTime`, run `performWeld` and
set `lastWeldTime` to the `millis()` value read after the weld ends
(`nowAfter`). -/
def weldCheck (s : State) (footSwitchLow : Bool) (now isrFires nowAfter : Nat) :
    State :=
  if footSwitchLow then
    if ulongSub now s.lastWeldTime > DEBOUNCE_MS then
      { performWeld s isrFires with lastWeldTime := nowAfter % ULONG_MOD }
    else s
  else s

/-- Environment inputs consumed by one iteration of `loop`: the two
analog samples, the foot-switch level, the `millis()` value at the
debounce check, the number of zero-crossing interrupts during the weld
delay, and the `millis()` value after the weld returns. -/
structure LoopInput where
  rawTime : Int
  rawPower : Int
  footSwitchLow : Bool
  now : Nat
  isrFires : Nat
  nowAfter : Nat
deriving Repr, DecidableEq

/-- One iteration of `loop` (lines 78-89): read the potentiometers,
update the display, then run the trigger check. -/
def loop (s : State) (inp : LoopInput) : State × DisplayCmd :=
  let s1 := readPotentiometers s inp.rawTime inp.rawPower
  let d := updateDisplay s1
  (weldCheck s1 inp.footSwitchLow inp.now inp.isrFires inp.nowAfter, d)

/-- Atomic transitions of the firmware after `setup()`.  The interrupt
handler runs to completion and cannot be preempted, so it is one step;
the main loop can be preempted between its statements, so its two
state-changing phases are separate steps (the zero crossings that fire
inside the blocking weld delay are accounted for inside
`performWeld`). -/
inductive Step : State → State → Prop where
  | isr (s : State) : Step s (isrStep s)
  | read (s : State) (rawTime rawPower : Int) :
      Step s (readPotentiometers s rawTime rawPower)
  | weld (s : State) (footSwitchLow : Bool) (now isrFires nowAfter : Nat) :
      Step s (weldCheck s footSwitchLow now isrFires nowAfter)

/-- States reachable from the post-`setup()` state. -/
inductive Reachable : State → Prop where
  | init : Reachable initState
  | step {s t : State} : Reachable s → Step s t → Reachable t

/-- Concrete loop input used by witnesses: foot switch released. -/
def inpIdle : LoopInput :=
  { rawTime := 512, rawPower := 512, footSwitchLow := false
    now := 100, isrFires := 0, nowAfter := 100 }

/-- Concrete loop input used by witnesses: foot switch pressed 100 ms
after the previous session end. -/
def inpEarly : LoopInput :=
  { rawTime := 512, rawPower := 512, footSwitchLow := true
    now := 100, isrFires := 0, nowAfter := 120 }

/-- Concrete loop input used by witnesses: foot switch pressed 1000 ms
after the previous session end. -/
def inpPress : LoopInput :=
  { rawTime := 512, rawPower := 512, footSwitchLow := true
    now := 1000, isrFires := 10, nowAfter := 1200 }

/-- Concrete loop input used by witnesses: foot switch still pressed
100 ms after the session driven by `inpPress` ended. -/
def inpHeld : LoopInput :=
  { rawTime := 512, rawPower := 512, footSwitchLow := true
    now := 1300, isrFires := 0, nowAfter := 1300 }

/-! Helper lemmas, shared by several claim proofs. -/

set_option maxRecDepth 4000 in
/-- The power mapping of line 99 lands in [10, 100] for every raw
sample in [0, 1023]. -/
theorem power_map_range_ball : ∀ r : Nat, r < 1024 →
    10 ≤ map r 0 1023 10 100 ∧ map r 0 1023 10 100 ≤ 100 := by
  decide

set_option maxRecDepth 4000 in
/-- The time mapping of line 95 lands in [1, 50] for every raw sample
in [0, 1023]. -/
theorem time_map_range_ball : ∀ r : Nat, r < 1024 →
    1 ≤ map r 0 1023 1 50 ∧ map r 0 1023 1 50 ≤ 50 := by
  decide

set_option maxRecDepth 4000 in
/-- The firing delay of line 105 lands in [0, 8500] for every raw
power sample in [0, 1023]. -/
theorem firing_range_ball : ∀ r : Nat, r < 1024 →
    0 ≤ computeFiring (map r 0 1023 10 100) ∧
      computeFiring (map r 0 1023 10 100) ≤ 8500 := by
  decide

set_option maxRecDepth 4000 in
/-- Closed form of the firing-delay map on in-range power values. -/
theorem firing_affine_ball : ∀ a : Nat, a < 91 →
    computeFiring (10 + (a : Int)) =
      100 + Int.tdiv ((100 - (10 + (a : Int))) * 8400) 90 := by
  decide

set_option maxRecDepth 8000 in
/-- The firing-delay map is antitone on in-range power values. -/
theorem firing_antitone_ball : ∀ a : Nat, a < 91 → ∀ b : Nat, b < 91 →
    a ≤ b → computeFiring (10 + (b : Int)) ≤ computeFiring (10 + (a : Int)) := by
  decide

/-- One zero-crossing interrupt leaves a low triac pin low. -/
theorem isrStep_triac_low {s : State} (h : s.triac = false) :
    (isrStep s).triac = false := by
  unfold isrStep zeroCrossISR
  cases hw : s.weldingActive <;> simp [hw, h]

/-- The trigger check of lines 82-88 leaves a low triac pin low. -/
theorem weldCheck_triac_low {s : State} (fsl : Bool) (now n na : Nat)
    (h : s.triac = false) :
    (weldCheck s fsl now n na).triac = false := by
  unfold weldCheck
  cases fsl
  · exact h
  · by_cases hc : ulongSub now s.lastWeldTime > DEBOUNCE_MS
    · simp only [hc, if_true, if_pos]
      rfl
    · simp [hc, h]

/-- The triac pin is low in every reachable state (at every atomic
step boundary of the machine). -/
theorem reachable_triac_low : ∀ s : State, Reachable s → s.triac = false := by
  intro s h
  induction h with
  | init => rfl
  | step hr hst ih =>
    cases hst with
    | isr => exact isrStep_triac_low ih
    | read rt rp => exact ih
    | weld fsl now n na => exact weldCheck_triac_low fsl now n na ih

/-- If more than `DEBOUNCE_MS` have not elapsed, the trigger check
does nothing. -/
theorem weldCheck_skip {s : State} (fsl : Bool) (now n na : Nat)
    (h : ulongSub now s.lastWeldTime ≤ DEBOUNCE_MS) :
    weldCheck s fsl now n na = s := by
  have hc : ¬ ulongSub now s.lastWeldTime > DEBOUNCE_MS := by omega
  unfold weldCheck
  cases fsl
  · rfl
  · simp [hc]

/-- If the foot switch is pressed and more than `DEBOUNCE_MS` have
elapsed, the trigger check runs `performWeld` and stamps
`lastWeldTime` with the time when the weld ended. -/
theorem weldCheck_fire {s : State} (now n na : Nat)
    (h : ulongSub now s.lastWeldTime > DEBOUNCE_MS) :
    weldCheck s true now n na =
      { performWeld s n with lastWeldTime := na % ULONG_MOD } := by
  unfold weldCheck
  simp [h]

/-! Claim theorems. -/

/-- C1: when `performWeld` returns (the session transition from ARMED
back to IDLE), `weldingActive` is false and the triac pin is driven
low, for every starting state and regardless of how many zero-crossing
interrupts fired during the blocking delay: the final triac write is
unconditional and happens after the flag is cleared. -/
theorem weld_session_end_safe : ∀ (s : State) (isrFires : Nat),
    (performWeld s isrFires).weldingActive = false ∧
    (performWeld s isrFires).triac = false := by
  intro s n
  exact ⟨rfl, rfl⟩

/-- C2: whenever the zero-crossing handler runs with `weldingActive`
false it returns at once, with no busy-wait and no triac write (empty
event trace, state unchanged); consequently the triac output is low in
every reachable state in which the session is inactive. -/
theorem isr_inactive_no_fire :
    (∀ s : State, s.weldingActive = false → zeroCrossISR s = (s, [])) ∧
    (∀ s : State, Reachable s → s.weldingActive = false → s.triac = false) := by
  constructor
  · intro s h
    simp [zeroCrossISR, h]
  · intro s hr _
    exact reachable_triac_low s hr

/-- C2 witness: the handler at the post-setup state. -/
theorem isr_inactive_no_fire_witness :
    (initState.weldingActive = false ∧
      zeroCrossISR initState = (initState, [])) ∧
    initState.triac = false :=
  ⟨⟨rfl, isr_inactive_no_fire.1 initState rfl⟩,
    isr_inactive_no_fire.2 initState Reachable.init rfl⟩

/-- C3 counterexample: the claim says `computeFiring 100 = 0` and
`computeFiring 55 ≈ 4722`; the source maps 100 percent power to a
100 us delay and 55 percent to 4300 us. -/
theorem firing_endpoints_counterexample :
    computeFiring 100 = 100 ∧ computeFiring 100 ≠ 0 ∧
      computeFiring 55 = 4300 := by
  decide

/-- C3 (amended): the firing-delay map of line 105 sends 100 percent
power to a 100 us delay (not 0), 10 percent to 8500 us, and on
[10, 100] follows the truncated linear map
`100 + (100 - p) * 8400 / 90`, so 55 percent gives 4300 us. -/
theorem firing_model_values :
    computeFiring 100 = 100 ∧ computeFiring 10 = 8500 ∧
    computeFiring 55 = 4300 ∧
    (∀ p : Int, 10 ≤ p → p ≤ 100 →
      computeFiring p = 100 + Int.tdiv ((100 - p) * 8400) 90) := by
  refine ⟨by decide, by decide, by decide, ?_⟩
  intro p h1 h2
  have hp : p = 10 + ((p - 10).toNat : Int) := by omega
  rw [hp]
  exact firing_affine_ball (p - 10).toNat (by omega)

/-- C3 witness: the interpolation formula at 55 percent power. -/
theorem firing_model_values_witness :
    (10 : Int) ≤ 55 ∧ (55 : Int) ≤ 100 ∧
    computeFiring 55 = 100 + Int.tdiv ((100 - 55) * 8400) 90 :=
  ⟨by decide, by decide,
    firing_model_values.2.2.2 55 (by decide) (by decide)⟩

/-- C4: for every raw power sample in [0, 1023], the firing delay
published by `readPotentiometers` lies in [0, 8500] us, so the
busy-wait plus the 50 us trigger pulse fits within the 10000 us
half-cycle. -/
theorem firing_delay_bounds : ∀ (s : State) (rawTime rawPower : Int),
    0 ≤ rawPower → rawPower ≤ 1023 →
    0 ≤ (readPotentiometers s rawTime rawPower).firingDelay ∧
    (readPotentiometers s rawTime rawPower).firingDelay ≤ 8500 ∧
    (readPotentiometers s rawTime rawPower).firingDelay + 50 ≤ 10000 := by
  intro s rt rp h0 h1
  have hfd : (readPotentiometers s rt rp).firingDelay
      = computeFiring (map rp 0 1023 10 100) := rfl
  obtain ⟨hl, hu⟩ := firing_range_ball rp.toNat (by omega)
  have he : ((rp.toNat : Int)) = rp := by omega
  rw [he] at hl hu
  rw [hfd]
  exact ⟨hl, hu, by omega⟩

/-- C4 witness: mid-scale raw power sample 512 (55 percent power,
4300 us delay). -/
theorem firing_delay_bounds_witness :
    (0 : Int) ≤ 512 ∧ (512 : Int) ≤ 1023 ∧
    (0 ≤ (readPotentiometers initState 512 512).firingDelay ∧
      (readPotentiometers initState 512 512).firingDelay ≤ 8500 ∧
      (readPotentiometers initState 512 512).firingDelay + 50 ≤ 10000) :=
  ⟨by decide, by decide,
    firing_delay_bounds initState 512 512 (by decide) (by decide)⟩

/-- C5: for every state whose `setTimeVal` is in [1, 50], the weld
duration computed at session start (line 118) is `setTimeVal * 20`
milliseconds and lies in [20, 1000]; and the time-potentiometer
mapping of line 95 indeed guarantees `setTimeVal` is in [1, 50] for
every raw sample in [0, 1023]. -/
theorem session_duration_formula :
    (∀ s : State, 1 ≤ s.setTimeVal → s.setTimeVal ≤ 50 →
      weldDuration s = s.setTimeVal * 20 ∧
      20 ≤ weldDuration s ∧ weldDuration s ≤ 1000) ∧
    (∀ (s : State) (rawTime rawPower : Int), 0 ≤ rawTime → rawTime ≤ 1023 →
      1 ≤ (readPotentiometers s rawTime rawPower).setTimeVal ∧
      (readPotentiometers s rawTime rawPower).setTimeVal ≤ 50) := by
  constructor
  · intro s h1 h2
    refine ⟨rfl, ?_, ?_⟩ <;> unfold weldDuration <;> omega
  · intro s rt rp h0 h1
    have hst : (readPotentiometers s rt rp).setTimeVal
        = map rt 0 1023 1 50 := rfl
    obtain ⟨hl, hu⟩ := time_map_range_ball rt.toNat (by omega)
    have he : ((rt.toNat : Int)) = rt := by omega
    rw [he] at hl hu
    rw [hst]
    exact ⟨hl, hu⟩

/-- C5 witness: time level 10 gives a 200 ms session; raw time sample
512 gives time level 25. -/
theorem session_duration_formula_witness :
    ((1 : Int) ≤ 10 ∧ (10 : Int) ≤ 50 ∧
      (weldDuration { initState with setTimeVal := 10 } = 10 * 20 ∧
        20 ≤ weldDuration { initState with setTimeVal := 10 } ∧
        weldDuration { initState with setTimeVal := 10 } ≤ 1000)) ∧
    ((0 : Int) ≤ 512 ∧ (512 : Int) ≤ 1023 ∧
      (1 ≤ (readPotentiometers initState 512 0).setTimeVal ∧
        (readPotentiometers initState 512 0).setTimeVal ≤ 50)) :=
  ⟨⟨by decide, by decide,
      session_duration_formula.1 { initState with setTimeVal := 10 }
        (by decide) (by decide)⟩,
    ⟨by decide, by decide,
      session_duration_formula.2 initState 512 0 (by decide) (by decide)⟩⟩

/-- C6: the debounce window is measured from the end of the previous
session.  If at most `DEBOUNCE_MS` have elapsed since `lastWeldTime`
(which stamps the previous session end), the loop iteration only
refreshes the potentiometer readings and starts no session, whatever
the foot switch reads; if the foot switch reads engaged and more than
`DEBOUNCE_MS` have elapsed, exactly one session runs and the new
`lastWeldTime` is the time at which that session ended; hence a press
within the window of a session end starts nothing, and a continuously
held switch starts at most one session per window. -/
theorem debounce_from_session_end :
    (∀ (s : State) (inp : LoopInput),
      ulongSub inp.now s.lastWeldTime ≤ DEBOUNCE_MS →
      (loop s inp).1 = readPotentiometers s inp.rawTime inp.rawPower) ∧
    (∀ (s : State) (inp : LoopInput),
      inp.footSwitchLow = true →
      ulongSub inp.now s.lastWeldTime > DEBOUNCE_MS →
      (loop s inp).1 =
        { performWeld (readPotentiometers s inp.rawTime inp.rawPower)
            inp.isrFires with
          lastWeldTime := inp.nowAfter % ULONG_MOD }) ∧
    (∀ (s : State) (inp1 inp2 : LoopInput),
      inp1.footSwitchLow = true →
      ulongSub inp1.now s.lastWeldTime > DEBOUNCE_MS →
      ulongSub inp2.now (loop s inp1).1.lastWeldTime ≤ DEBOUNCE_MS →
      (loop (loop s inp1).1 inp2).1 =
        readPotentiometers (loop s inp1).1 inp2.rawTime inp2.rawPower) := by
  have skip : ∀ (s : State) (inp : LoopInput),
      ulongSub inp.now s.lastWeldTime ≤ DEBOUNCE_MS →
      (loop s inp).1 = readPotentiometers s inp.rawTime inp.rawPower := by
    intro s inp h
    have hL : (readPotentiometers s inp.rawTime inp.rawPower).lastWeldTime
        = s.lastWeldTime := rfl
    exact weldCheck_skip inp.footSwitchLow inp.now inp.isrFires inp.nowAfter
      (by rw [hL]; exact h)
  have fire : ∀ (s : State) (inp : LoopInput),
      inp.footSwitchLow = true →
      ulongSub inp.now s.lastWeldTime > DEBOUNCE_MS →
      (loop s inp).1 =
        { performWeld (readPotentiometers s inp.rawTime inp.rawPower)
            inp.isrFires with
          lastWeldTime := inp.nowAfter % ULONG_MOD } := by
    intro s inp hf h
    have hL : (readPotentiometers s inp.rawTime inp.rawPower).lastWeldTime
        = s.lastWeldTime := rfl
    have h2 : (loop s inp).1 = weldCheck
        (readPotentiometers s inp.rawTime inp.rawPower) inp.footSwitchLow
        inp.now inp.isrFires inp.nowAfter := rfl
    rw [h2, hf]
    exact weldCheck_fire inp.now inp.isrFires inp.nowAfter
      (by rw [hL]; exact h)
  exact ⟨skip, fire, fun s inp1 inp2 _ _ h2 => skip (loop s inp1).1 inp2 h2⟩

/-- C6 witness: from the post-setup state, a press 100 ms after the
previous session end starts nothing; a press 1000 ms after starts a
session whose end time (1200 ms) becomes the new `lastWeldTime`; a
switch still held 100 ms after that session end starts nothing. -/
theorem debounce_from_session_end_witness :
    (ulongSub inpEarly.now initState.lastWeldTime ≤ DEBOUNCE_MS ∧
      (loop initState inpEarly).1 =
        readPotentiometers initState inpEarly.rawTime inpEarly.rawPower) ∧
    (inpPress.footSwitchLow = true ∧
      ulongSub inpPress.now initState.lastWeldTime > DEBOUNCE_MS ∧
      (loop initState inpPress).1 =
        { performWeld (readPotentiometers initState inpPress.rawTime
            inpPress.rawPower) inpPress.isrFires with
          lastWeldTime := inpPress.nowAfter % ULONG_MOD }) ∧
    (ulongSub inpHeld.now (loop initState inpPress).1.lastWeldTime ≤
        DEBOUNCE_MS ∧
      (loop (loop initState inpPress).1 inpHeld).1 =
        readPotentiometers (loop initState inpPress).1 inpHeld.rawTime
          inpHeld.rawPower) :=
  ⟨⟨by decide, debounce_from_session_end.1 initState inpEarly (by decide)⟩,
    ⟨rfl, by decide,
      debounce_from_session_end.2.1 initState inpPress rfl (by decide)⟩,
    ⟨by decide,
      debounce_from_session_end.2.2 initState inpPress inpHeld rfl
        (by decide) (by decide)⟩⟩

/-- C7 counterexample: the firing-delay map applies no clamping; at
the out-of-range input 105 it extrapolates to -366 us instead of
returning the nearest in-range result `computeFiring 100`. -/
theorem firing_clamp_counterexample :
    computeFiring 105 = -366 ∧ computeFiring 105 ≠ computeFiring 100 := by
  decide

/-- C7 (amended): the firing-delay map itself does not clamp —
out-of-range inputs extrapolate linearly (105 gives -366 us, 0 gives
9433 us) — but out-of-range power values can never reach it: for every
raw sample in [0, 1023] the power mapping of line 99 produces a value
in [10, 100], and the published firing delay is exactly
`computeFiring` of that in-range value. -/
theorem firing_input_in_range :
    (computeFiring 105 = -366 ∧ computeFiring 0 = 9433) ∧
    (∀ (s : State) (rawTime rawPower : Int),
      0 ≤ rawPower → rawPower ≤ 1023 →
      10 ≤ (readPotentiometers s rawTime rawPower).setPowerVal ∧
      (readPotentiometers s rawTime rawPower).setPowerVal ≤ 100 ∧
      (readPotentiometers s rawTime rawPower).firingDelay =
        computeFiring ((readPotentiometers s rawTime rawPower).setPowerVal)) := by
  refine ⟨by decide, ?_⟩
  intro s rt rp h0 h1
  have hsp : (readPotentiometers s rt rp).setPowerVal
      = map rp 0 1023 10 100 := rfl
  obtain ⟨hl, hu⟩ := power_map_range_ball rp.toNat (by omega)
  have he : ((rp.toNat : Int)) = rp := by omega
  rw [he] at hl hu
  rw [hsp]
  exact ⟨hl, hu, rfl⟩

/-- C7 witness: the extreme raw power sample 1023 yields 100 percent
power, still in range. -/
theorem firing_input_in_range_witness :
    (0 : Int) ≤ 1023 ∧ (1023 : Int) ≤ 1023 ∧
    (10 ≤ (readPotentiometers initState 0 1023).setPowerVal ∧
      (readPotentiometers initState 0 1023).setPowerVal ≤ 100 ∧
      (readPotentiometers initState 0 1023).firingDelay =
        computeFiring ((readPotentiometers initState 0 1023).setPowerVal)) :=
  ⟨by decide, by decide,
    firing_input_in_range.2 initState 0 1023 (by decide) (by decide)⟩

/-- C8: the firing-delay computation is monotonically non-increasing
in the power percentage over [10, 100]. -/
theorem firing_delay_antitone : ∀ p1 p2 : Int, 10 ≤ p1 → p1 ≤ p2 →
    p2 ≤ 100 → computeFiring p2 ≤ computeFiring p1 := by
  intro p1 p2 h1 h12 h2
  have ha : p1 = 10 + ((p1 - 10).toNat : Int) := by omega
  have hb : p2 = 10 + ((p2 - 10).toNat : Int) := by omega
  rw [ha, hb]
  exact firing_antitone_ball (p1 - 10).toNat (by omega)
    (p2 - 10).toNat (by omega) (by omega)

/-- C8 witness: the delay at full power is at most the delay at
minimum power. -/
theorem firing_delay_antitone_witness :
    (10 : Int) ≤ 10 ∧ (10 : Int) ≤ 100 ∧ (100 : Int) ≤ 100 ∧
    computeFiring 100 ≤ computeFiring 10 :=
  ⟨by decide, by decide, by decide,
    firing_delay_antitone 10 100 (by decide) (by decide) (by decide)⟩

/-- C9: every loop iteration sends the display the decimal value
`setTimeVal * 100 + setPowerVal` (for the values just read), with the
colon dot mask `0b01000000` and leading zeros enabled. -/
theorem display_encoding : ∀ (s : State) (inp : LoopInput),
    (loop s inp).2.num =
      (readPotentiometers s inp.rawTime inp.rawPower).setTimeVal * 100 +
        (readPotentiometers s inp.rawTime inp.rawPower).setPowerVal ∧
    (loop s inp).2.dots = 0b01000000 ∧
    (loop s inp).2.leadingZeros = true := by
  intro s inp
  exact ⟨rfl, rfl, rfl⟩

/-- C10: the zero-crossing handler never modifies the shared state it
reads: `firingDelay`, `weldingActive`, `setTimeVal`, `setPowerVal`,
`lastWeldTime` (and `zeroCrossDetected`) are unchanged on return —
its only effect is on the triac pin and the emitted pulse trace. -/
theorem isr_frame_condition : ∀ s : State,
    (zeroCrossISR s).1.firingDelay = s.firingDelay ∧
    (zeroCrossISR s).1.weldingActive = s.weldingActive ∧
    (zeroCrossISR s).1.setTimeVal = s.setTimeVal ∧
    (zeroCrossISR s).1.setPowerVal = s.setPowerVal ∧
    (zeroCrossISR s).1.lastWeldTime = s.lastWeldTime ∧
    (zeroCrossISR s).1.zeroCrossDetected = s.zeroCrossDetected := by
  intro s
  cases hw : s.weldingActive <;> simp [zeroCrossISR, hw]

end SpotWelder
